import Mathlib

/-!
Verification of the CampaignIQ simulation-and-analysis pipeline.

The Python sources are shallowly embedded over exact rational arithmetic:

* Python float values are modelled as rationals; a float expression that is
  not finite (inf or NaN, e.g. an unguarded division by zero on numpy
  scalars, or the mean of an empty group) is modelled as the value none of
  an Option type.
* Python int() truncation and round() (round-half-to-even) are modelled
  explicitly (pyInt, pyRoundInt, pyRound).
* Dates are modelled as integer day numbers with the epoch placed on a
  Monday, so weekday(d) = d mod 7 and a weekend is a weekday of 5 or 6.
* The seeded pseudorandom streams (numpy's and the random module's global
  generators, both seeded in CampaignDataGenerator.__init__) are modelled
  as explicit functions from a draw index to the drawn value, threaded in
  the exact consumption order of the source; the pandas row sampler is
  modelled as a deterministic index-selection function of the same stream.
-/

namespace CampaignIQ

/-- Python int() applied to a rational: truncation toward zero. -/
def pyInt (x : ℚ) : ℤ := if 0 ≤ x then ⌊x⌋ else ⌈x⌉

/-- Python round() to an integer: round half to even. -/
def pyRoundInt (x : ℚ) : ℤ :=
  if x - ⌊x⌋ < 1/2 then ⌊x⌋
  else if 1/2 < x - ⌊x⌋ then ⌊x⌋ + 1
  else if ⌊x⌋ % 2 = 0 then ⌊x⌋ else ⌊x⌋ + 1

/-- Python round(x, n): round half to even at n decimal digits. -/
def pyRound (x : ℚ) (n : ℕ) : ℚ := (pyRoundInt (x * 10 ^ n) : ℚ) / 10 ^ n

/-- Mean of a column, modelled as none (a NaN float) on an empty group. -/
def pmean (l : List ℚ) : Option ℚ :=
  if l.isEmpty then none else some (l.sum / (l.length : ℚ))

/-! ### Data model -/

/-- One performance record as emitted by the simulator
(CampaignDataGenerator._generate_daily_metrics).  The creative_id string
"{platform}_creative_{n}" is modelled by the platform field together with
the ordinal n, which is a bijective rendering of the same information. -/
structure PRecord where
  date : ℤ
  platform : String
  creative_id : ℕ
  impressions : ℤ
  reach : ℤ
  clicks : ℤ
  spend : ℚ
  engagements : ℤ
  video_views : ℤ
  cpm : ℚ
  ctr : ℚ
  engagement_rate : ℚ
deriving Repr, DecidableEq

/-- Per-platform configuration block of config.yaml. -/
structure PlatformConfig where
  avg_cpm : ℚ
  avg_ctr : ℚ
  avg_engagement_rate : ℚ
  budget_percentage : ℚ
  num_creatives : ℕ
deriving Repr, DecidableEq

/-- CampaignConfig: the campaign section plus the three platform blocks
read by CampaignDataGenerator.__init__ (the platform list is fixed to
google_display, meta, tiktok in the source). -/
structure Config where
  duration_days : ℕ
  total_budget : ℚ
  start_date : ℤ
  google_display : PlatformConfig
  meta : PlatformConfig
  tiktok : PlatformConfig
deriving Repr, DecidableEq

/-- Lookup of self.platforms_config[platform] for the three fixed platforms. -/
def Config.platform_config (cfg : Config) (p : String) : PlatformConfig :=
  if p = "google_display" then cfg.google_display
  else if p = "meta" then cfg.meta
  else cfg.tiktok

/-- The fixed platform list self.platforms. -/
def platforms : List String := ["google_display", "meta", "tiktok"]

/-! ### Simulator: effect multipliers -/

/-- Weekday of a modelled date (0 = Monday, 6 = Sunday). -/
def dayOfWeek (date : ℤ) : ℤ := date % 7

/-- Date of campaign day number d. -/
def dateOf (cfg : Config) (day : ℕ) : ℤ := cfg.start_date + day

/-- The is_weekend date feature from _get_date_features. -/
def isWeekendDate (date : ℤ) : Bool := 5 ≤ dayOfWeek date

/-- The week_number date feature: days_since_start // 7 + 1. -/
def weekNumberOf (day : ℕ) : ℕ := day / 7 + 1

/-- CPM component of _calculate_learning_phase_multiplier: 1.0 from day 7
on, otherwise 1.3 - days_since_start * 0.3 / 7. -/
def learning_phase_cpm_multiplier (days_since_start : ℕ) : ℚ :=
  if 7 ≤ days_since_start then 1
  else 13/10 - (days_since_start : ℚ) * (3/10) / 7

/-- CTR component of _calculate_learning_phase_multiplier: 1.0 from day 7
on, otherwise 0.85 + days_since_start * 0.15 / 7. -/
def learning_phase_ctr_multiplier (days_since_start : ℕ) : ℚ :=
  if 7 ≤ days_since_start then 1
  else 17/20 + (days_since_start : ℚ) * (3/20) / 7

/-- The fixed weekend factor table of _calculate_day_of_week_multiplier;
weekdays get 1.0. -/
def day_of_week_multiplier (platform : String) (wknd : Bool) : ℚ :=
  if !wknd then 1
  else if platform = "google_display" then 19/20
  else if platform = "meta" then 11/10
  else if platform = "tiktok" then 6/5
  else 1

/-- The fixed ordinal table of _get_creative_multiplier. -/
def creative_multiplier (creative_id : ℕ) : ℚ :=
  if creative_id = 1 then 13/10
  else if creative_id = 2 then 1
  else if creative_id = 3 then 4/5
  else 1

/-! ### Simulator: one daily record

The uniform draws consumed by _generate_daily_metrics are passed as an
explicit record of drawn values, in the source's consumption order:
fatigue draws (only in weeks past 3), the three noise draws, the spend
draw, the reach draw and the video-view draw. -/

structure Draws where
  fatigue_ctr : ℚ
  fatigue_eng : ℚ
  noise_cpm : ℚ
  noise_ctr : ℚ
  noise_eng : ℚ
  noise_spend : ℚ
  reach_frac : ℚ
  video_frac : ℚ
deriving Repr, DecidableEq

/-- The cpm value right before rounding: baseline, learning phase, noise. -/
def cpmValue (cfg : Config) (p : String) (day : ℕ) (dr : Draws) : ℚ :=
  (cfg.platform_config p).avg_cpm * learning_phase_cpm_multiplier day * dr.noise_cpm

/-- The ctr value right before rounding: baseline, learning phase, fatigue
past week 3, day-of-week effect, creative variance, noise. -/
def ctrValue (cfg : Config) (p : String) (creative : ℕ) (day : ℕ) (dr : Draws) : ℚ :=
  (cfg.platform_config p).avg_ctr
    * learning_phase_ctr_multiplier day
    * (if 3 < weekNumberOf day then dr.fatigue_ctr else 1)
    * day_of_week_multiplier p (isWeekendDate (dateOf cfg day))
    * creative_multiplier creative
    * dr.noise_ctr

/-- The engagement_rate value right before rounding. -/
def engValue (cfg : Config) (p : String) (creative : ℕ) (day : ℕ) (dr : Draws) : ℚ :=
  (cfg.platform_config p).avg_engagement_rate
    * (if 3 < weekNumberOf day then dr.fatigue_eng else 1)
    * day_of_week_multiplier p (isWeekendDate (dateOf cfg day))
    * creative_multiplier creative
    * dr.noise_eng

/-- Planned per-creative daily budget. -/
def plannedBudget (cfg : Config) (p : String) : ℚ :=
  cfg.total_budget * (cfg.platform_config p).budget_percentage
    / (cfg.duration_days : ℚ) / ((cfg.platform_config p).num_creatives : ℚ)

/-- Actual spend before rounding. -/
def spendValue (cfg : Config) (p : String) (dr : Draws) : ℚ :=
  plannedBudget cfg p * dr.noise_spend

/-- Whether the platform supports engagements in _generate_daily_metrics. -/
def isSocial (p : String) : Bool := p = "meta" ∨ p = "tiktok"

/-- Shallow embedding of _generate_daily_metrics. -/
def generate_daily_metrics (cfg : Config) (p : String) (creative : ℕ) (day : ℕ)
    (dr : Draws) : PRecord :=
  let cpm := cpmValue cfg p day dr
  let ctr := ctrValue cfg p creative day dr
  let eng := engValue cfg p creative day dr
  let actual_spend := spendValue cfg p dr
  let impressions := pyInt (actual_spend / cpm * 1000)
  { date := dateOf cfg day
    platform := p
    creative_id := creative
    impressions := impressions
    reach := pyInt ((impressions : ℚ) * dr.reach_frac)
    clicks := pyInt ((impressions : ℚ) * ctr)
    spend := pyRound actual_spend 2
    engagements := if isSocial p then pyInt ((impressions : ℚ) * eng) else 0
    video_views := pyInt ((impressions : ℚ) * dr.video_frac)
    cpm := pyRound cpm 2
    ctr := pyRound ctr 4
    engagement_rate := if isSocial p then pyRound eng 4 else 0 }

/-! ### Data Quality Injector (_add_data_quality_issues) -/

/-- In-place transformation of the outlier record selected in step 2 of
_add_data_quality_issues, applying the successive .loc assignments of the
source in order: the five count fields are scaled by a common factor, the
spend is left alone, then cpm and ctr are recomputed from the already
updated row. -/
def scaleOutlier (r : PRecord) (m : ℚ) : PRecord :=
  let r1 := { r with impressions := pyInt ((r.impressions : ℚ) * m) }
  let r2 := { r1 with reach := pyInt ((r1.reach : ℚ) * m) }
  let r3 := { r2 with clicks := pyInt ((r2.clicks : ℚ) * m) }
  let r4 := { r3 with engagements := pyInt ((r3.engagements : ℚ) * m) }
  let r5 := { r4 with video_views := pyInt ((r4.video_views : ℚ) * m) }
  let r6 := { r5 with cpm := pyRound (r5.spend / (r5.impressions : ℚ) * 1000) 2 }
  { r6 with ctr := pyRound ((r6.clicks : ℚ) / (r6.impressions : ℚ)) 4 }

/-- Step 2 of _add_data_quality_issues on the whole dataset: the record at
the sampled position is replaced by its outlier version, all others kept. -/
def applyOutlier (l : List PRecord) (idx : ℕ) (m : ℚ) : List PRecord :=
  l.mapIdx (fun j r => if j = idx then scaleOutlier r m else r)

/-- Index selection of the pandas row sampler, modelled as a deterministic
function of one drawn stream value. -/
def selectIndex (q : ℚ) (n : ℕ) : ℕ := (pyInt (q * (n : ℚ))).toNat % n

/-- Number of rows of a platform currently in the dataset. -/
def countPlatform (l : List PRecord) (p : String) : ℕ :=
  (l.filter (fun r => r.platform = p)).length

/-- Removal of the n-th row (0-based) among the rows of platform p. -/
def removePlatformRow : List PRecord → String → ℕ → List PRecord
  | [], _, _ => []
  | r :: t, p, n =>
    if r.platform = p then
      if n = 0 then t else r :: removePlatformRow t p (n - 1)
    else r :: removePlatformRow t p n

/-- Step 1 of _add_data_quality_issues for one platform: k sampled rows of
that platform are dropped, each sample consuming one stream value. -/
def dropRows (l : List PRecord) (p : String) (snp : ℕ → ℚ) (i : ℕ) :
    ℕ → List PRecord × ℕ
  | 0 => (l, i)
  | k + 1 =>
    let l1 := removePlatformRow l p (selectIndex (snp i) (countPlatform l p))
    dropRows l1 p snp (i + 1) k

/-- One platform iteration of step 1 of _add_data_quality_issues: when
the platform holds more than 5 rows, randint(1, 2) rows of it are dropped
(the randint is modelled as the threshold test of one random-module draw).
The accumulator carries the dataset and the positions in the two streams. -/
def dropStep (snp srand : ℕ → ℚ) (acc : List PRecord × ℕ × ℕ) (p : String) :
    List PRecord × ℕ × ℕ :=
  if 5 < countPlatform acc.1 p then
    let k := if srand acc.2.2 < 1/2 then 1 else 2
    let dropped := dropRows acc.1 p snp acc.2.1 k
    (dropped.1, dropped.2, acc.2.2 + 1)
  else acc

/-- Shallow embedding of _add_data_quality_issues.  snp is the numpy
stream (uniform draws and the pandas sampler), srand the random-module
stream; i and j are the current positions in the two streams. -/
def add_data_quality_issues (l : List PRecord) (snp srand : ℕ → ℚ) (i j : ℕ) :
    List PRecord × ℕ × ℕ :=
  let afterDrop := platforms.foldl (dropStep snp srand) (l, i, j)
  let outIdx := selectIndex (snp afterDrop.2.1) afterDrop.1.length
  let m := snp (afterDrop.2.1 + 1)
  (applyOutlier afterDrop.1 outIdx m, afterDrop.2.1 + 2, afterDrop.2.2)

/-! ### Full generation pipeline (generate_campaign_data) -/

/-- Consumption of the uniform draws of one call of
_generate_daily_metrics from the numpy stream, in source order: the two
fatigue draws happen only for week numbers past 3; then the three noise
draws, the spend draw, the reach draw and the video-view draw. -/
def mkDraws (snp : ℕ → ℚ) (i : ℕ) (day : ℕ) : Draws × ℕ :=
  if 3 < weekNumberOf day then
    ({ fatigue_ctr := snp i, fatigue_eng := snp (i + 1), noise_cpm := snp (i + 2)
       noise_ctr := snp (i + 3), noise_eng := snp (i + 4), noise_spend := snp (i + 5)
       reach_frac := snp (i + 6), video_frac := snp (i + 7) }, i + 8)
  else
    ({ fatigue_ctr := 1, fatigue_eng := 1, noise_cpm := snp i
       noise_ctr := snp (i + 1), noise_eng := snp (i + 2), noise_spend := snp (i + 3)
       reach_frac := snp (i + 4), video_frac := snp (i + 5) }, i + 6)

/-- Raw generation loops of generate_campaign_data: for each platform,
each creative ordinal, each campaign day, one record, threading the numpy
stream position. -/
def generateRaw (cfg : Config) (snp : ℕ → ℚ) : List PRecord × ℕ :=
  platforms.foldl
    (fun acc p =>
      (List.range (cfg.platform_config p).num_creatives).foldl
        (fun acc c =>
          (List.range cfg.duration_days).foldl
            (fun acc day =>
              let dn := mkDraws snp acc.2 day
              (acc.1 ++ [generate_daily_metrics cfg p (c + 1) day dn.1], dn.2))
            acc)
        acc)
    ([], 0)

/-- Rank of the three fixed platform names in lexicographic string order,
used for the final sort. -/
def platformOrd (p : String) : ℕ :=
  if p = "google_display" then 0
  else if p = "meta" then 1
  else if p = "tiktok" then 2
  else 3

/-- Comparison key of the final df.sort_values(['date', 'platform',
'creative_id']): lexicographic on date, then the platform string, then the
creative_id string (for the fixed platform names and ordinal suffixes both
string orders agree with the orders used here). -/
def recordLE (a b : PRecord) : Bool :=
  if a.date ≠ b.date then a.date ≤ b.date
  else if a.platform ≠ b.platform then platformOrd a.platform ≤ platformOrd b.platform
  else a.creative_id ≤ b.creative_id

/-- Shallow embedding of generate_campaign_data: raw generation, the
data-quality corruption, and the final sort. -/
def generate_campaign_data (cfg : Config) (snp srand : ℕ → ℚ) : List PRecord :=
  let raw := generateRaw cfg snp
  let corrupted := add_data_quality_issues raw.1 snp srand raw.2 0
  corrupted.1.mergeSort recordLE

/-! ### Ingestion and Validation (DataIngestionAgent) -/

/-- Earliest date of the dataset (df['date'].min()); 0 on an empty frame
(never consulted there). -/
def minDate : List PRecord → ℤ
  | [] => 0
  | r :: t => t.foldl (fun a x => min a x.date) r.date

/-- Latest date of the dataset (df['date'].max()). -/
def maxDate : List PRecord → ℤ
  | [] => 0
  | r :: t => t.foldl (fun a x => max a x.date) r.date

/-- The days_covered figure of validate_data_quality:
(max date - min date).days + 1. -/
def daysCovered (l : List PRecord) : ℤ := maxDate l - minDate l + 1

/-- First-appearance deduplication, the order pandas unique() returns:
the head is kept and later duplicates of it are dropped. -/
def uniqueKeys {α : Type} [DecidableEq α] : List α → List α
  | [] => []
  | x :: t => x :: (uniqueKeys t).filter (fun y => y ≠ x)

/-- Number of distinct creatives of a platform present in the dataset. -/
def creativesOnPlatform (l : List PRecord) (p : String) : ℕ :=
  (uniqueKeys ((l.filter (fun r => r.platform = p)).map (·.creative_id))).length

/-- One data_completeness entry of validate_data_quality. -/
structure CompletenessEntry where
  expected_rows : ℤ
  actual_rows : ℕ
  missing_rows : ℤ
  completeness_percentage : ℤ
deriving Repr, DecidableEq

/-- The data_completeness entry of a platform in validate_data_quality:
expected_rows is expected_days * 3 with the row multiplier written as the
literal 3 in the source. -/
def data_completeness (l : List PRecord) (p : String) : CompletenessEntry :=
  let expected : ℤ := daysCovered l * 3
  let actual := countPlatform l p
  { expected_rows := expected
    actual_rows := actual
    missing_rows := expected - actual
    completeness_percentage := pyRoundInt ((actual : ℚ) / (expected : ℚ) * 100) }

/-- Processed record: a raw record plus the derived calendar features of
add_derived_features that the analysis claims consult. -/
structure ProcRecord extends PRecord where
  days_since_start : ℤ
  week_number : ℤ
  day_of_week : ℤ
  is_weekend : Bool
deriving Repr, DecidableEq

/-- Shallow embedding of add_derived_features: sort chronologically, then
derive every feature from the minimum date present in the data. -/
def add_derived_features (l : List PRecord) : List ProcRecord :=
  let start := minDate l
  (l.mergeSort (fun a b => a.date ≤ b.date)).map (fun r =>
    { toPRecord := r
      days_since_start := r.date - start
      week_number := (r.date - start).fdiv 7 + 1
      day_of_week := dayOfWeek r.date
      is_weekend := 5 ≤ dayOfWeek r.date })

/-! ### Analysis Engine (PerformanceAnalyzerAgent) -/

/-- Sum of the clicks column. -/
def sumClicks (d : List ProcRecord) : ℤ := (d.map (·.clicks)).sum

/-- Sum of the spend column. -/
def sumSpend (d : List ProcRecord) : ℚ := (d.map (·.spend)).sum

/-- The cost_per_click entry of calculate_overall_kpis.  The division
df['spend'].sum() / df['clicks'].sum() carries no zero guard in the
source; on numpy scalars a zero denominator yields inf (or NaN), which is
modelled as none. -/
def overall_cost_per_click (d : List ProcRecord) : Option ℚ :=
  if sumClicks d = 0 then none
  else some (pyRound (sumSpend d / (sumClicks d : ℚ)) 2)

/-- Rows of one platform (df[df['platform'] == platform]). -/
def platformRows (d : List ProcRecord) (p : String) : List ProcRecord :=
  d.filter (fun r => r.platform = p)

/-- The cost_per_click entry of analyze_by_platform, guarded by
platform_data['clicks'].sum() > 0 in the source. -/
def platform_cost_per_click (d : List ProcRecord) (p : String) : ℚ :=
  if 0 < sumClicks (platformRows d p) then
    pyRound (sumSpend (platformRows d p) / (sumClicks (platformRows d p) : ℚ)) 2
  else 0

/-! #### Weekly breakdown (anlyze_by_week) -/

/-- Rows of one week bucket. -/
def weekRows (d : List ProcRecord) (w : ℤ) : List ProcRecord :=
  d.filter (fun r => r.week_number = w)

/-- The ascending list of week numbers present in the data
(sorted(df['week_number'].unique())). -/
def weeksSorted (d : List ProcRecord) : List ℤ :=
  List.insertionSort (· ≤ ·) (uniqueKeys (d.map (·.week_number)))

/-- The avg_ctr entry of a week bucket, rounded to 3 decimals as in the
source. -/
def week_avg_ctr (d : List ProcRecord) (w : ℤ) : ℚ :=
  pyRound (((weekRows d w).map (·.ctr)).sum / ((weekRows d w).length : ℚ)) 3

/-- The avg_cpm entry of a week bucket, rounded to 2 decimals. -/
def week_avg_cpm (d : List ProcRecord) (w : ℤ) : ℚ :=
  pyRound (((weekRows d w).map (·.cpm)).sum / ((weekRows d w).length : ℚ)) 2

/-- The ctr_change_pct field of the i-th observed week (0-based over the
sorted week list): absent for the first observed week, otherwise the
guarded percent change against the immediately preceding observed week. -/
def ctr_change_pct (d : List ProcRecord) (i : ℕ) : Option ℚ :=
  if i = 0 ∨ (weeksSorted d).length ≤ i then none
  else
    let cur := week_avg_ctr d ((weeksSorted d).getD i 0)
    let prev := week_avg_ctr d ((weeksSorted d).getD (i - 1) 0)
    some (if 0 < prev then pyRound ((cur - prev) / prev * 100) 2 else 0)

/-- The cpm_change_pct field of the i-th observed week. -/
def cpm_change_pct (d : List ProcRecord) (i : ℕ) : Option ℚ :=
  if i = 0 ∨ (weeksSorted d).length ≤ i then none
  else
    let cur := week_avg_cpm d ((weeksSorted d).getD i 0)
    let prev := week_avg_cpm d ((weeksSorted d).getD (i - 1) 0)
    some (if 0 < prev then pyRound ((cur - prev) / prev * 100) 2 else 0)

/-! #### Creative breakdown (analyze_by_creative) -/

/-- Grouping key of a record in analyze_by_creative: the creative_id
string "{platform}_creative_{n}", rendered as the pair. -/
def recKey (r : ProcRecord) : String × ℕ := (r.platform, r.creative_id)

/-- Keys of creative_analysis in insertion order
(df['creative_id'].unique()). -/
def creativeKeys (d : List ProcRecord) : List (String × ℕ) :=
  uniqueKeys (d.map recKey)

/-- Rows of one creative. -/
def creativeRows (d : List ProcRecord) (k : String × ℕ) : List ProcRecord :=
  d.filter (fun r => recKey r = k)

/-- The avg_ctr entry of one creative, rounded to 4 decimals. -/
def creative_avg_ctr (d : List ProcRecord) (k : String × ℕ) : ℚ :=
  pyRound (((creativeRows d k).map (·.ctr)).sum / ((creativeRows d k).length : ℚ)) 4

/-- The platform filter of the ranking loop: creatives of creative_analysis
whose platform entry matches, in dict insertion order. -/
def platformCreatives (d : List ProcRecord) (p : String) : List (String × ℕ) :=
  (creativeKeys d).filter (fun k => k.1 = p)

/-- Order used by sorted(..., key=avg_ctr, reverse=True): a precedes b
when its avg_ctr is at least b's.  Sorting a list stably by this relation
is exactly Python's stable descending sort. -/
def ctrGE (d : List ProcRecord) (a b : String × ℕ) : Prop :=
  creative_avg_ctr d b ≤ creative_avg_ctr d a

instance (d : List ProcRecord) : DecidableRel (ctrGE d) := fun a b =>
  inferInstanceAs (Decidable (creative_avg_ctr d b ≤ creative_avg_ctr d a))

/-- The sorted_creative list of the ranking loop: the platform's creatives
stably sorted by descending avg_ctr. -/
def sortedCreatives (d : List ProcRecord) (p : String) : List (String × ℕ) :=
  List.insertionSort (ctrGE d) (platformCreatives d p)

/-- Position of a key in a list (0 when absent past the end). -/
def posOf {α : Type} [DecidableEq α] (k : α) : List α → ℕ
  | [] => 0
  | x :: t => if x = k then 0 else posOf k t + 1

/-- The rank_by_ctr value a creative receives from
enumerate(sorted_creative, 1): its position in the sorted list plus 1. -/
def rank_by_ctr (d : List ProcRecord) (p : String) (k : String × ℕ) : ℕ :=
  posOf k (sortedCreatives d p) + 1

/-! #### Day-of-week patterns (analyze_day_of_week_patterns) -/

/-- The weekday_avg_ctr entry of a platform: mean of the ctr column over
the weekday rows, rounded to 4 decimals; none models the NaN produced on
an empty group. -/
def weekday_avg_ctr (d : List ProcRecord) (p : String) : Option ℚ :=
  (pmean (((platformRows d p).filter (fun r => !r.is_weekend)).map (·.ctr))).map
    (fun x => pyRound x 4)

/-- The weekend_avg_ctr entry of a platform. -/
def weekend_avg_ctr (d : List ProcRecord) (p : String) : Option ℚ :=
  (pmean (((platformRows d p).filter (fun r => r.is_weekend)).map (·.ctr))).map
    (fun x => pyRound x 4)

/-- The weekend_ctr_lift field of a platform entry.  The outer Option is
key presence: the source writes the key only under the test
weekday_avg_ctr > 0 (false for a NaN average), so the else-branch leaves
the key absent.  The inner Option models a NaN value computed from an
empty weekend group. -/
def weekend_ctr_lift (d : List ProcRecord) (p : String) : Option (Option ℚ) :=
  match weekday_avg_ctr d p with
  | none => none
  | some w =>
    if 0 < w then
      some ((weekend_avg_ctr d p).map (fun e => pyRound ((e - w) / w * 100) 2))
    else none

/-! ### Concrete instances used by witnesses and counterexamples -/

/-- A baseline raw record for building concrete datasets. -/
def baseRec : PRecord :=
  { date := 0, platform := "meta", creative_id := 1, impressions := 100
    reach := 80, clicks := 10, spend := 5, engagements := 0, video_views := 0
    cpm := 10, ctr := 1/10, engagement_rate := 0 }

/-- A baseline processed record for building concrete datasets. -/
def baseProc : ProcRecord :=
  { toPRecord := baseRec, days_since_start := 0, week_number := 1
    day_of_week := 0, is_weekend := false }

/-- Dataset whose total clicks are zero but whose spend is positive. -/
def dZero : List ProcRecord :=
  [{ baseProc with clicks := 0, ctr := 0 }]

/-- Raw dataset with one platform, one creative, two days. -/
def dOneCreative : List PRecord :=
  [baseRec, { baseRec with date := 1 }]

/-- Dataset whose weekday average ctr on platform meta is zero while a
weekend row exists. -/
def dLiftZero : List ProcRecord :=
  [{ baseProc with ctr := 0 },
   { baseProc with date := 5, day_of_week := 5, is_weekend := true, ctr := 1/20 }]

/-- Dataset with positive weekday average ctr on platform meta. -/
def dLiftPos : List ProcRecord :=
  [{ baseProc with ctr := 1/10 },
   { baseProc with date := 5, day_of_week := 5, is_weekend := true, ctr := 1/5 }]

/-- Dataset with two observed weeks and positive week-1 averages. -/
def dWeeks : List ProcRecord :=
  [{ baseProc with week_number := 1, ctr := 1/10, cpm := 10 },
   { baseProc with date := 7, days_since_start := 7, week_number := 2, ctr := 1/5, cpm := 20 }]

/-- Raw dataset listed out of chronological order. -/
def dShuffled : List PRecord :=
  [{ baseRec with date := 1 }, baseRec]

/-- A platform configuration block used by the determinism witness. -/
def pcSmall : PlatformConfig :=
  { avg_cpm := 10, avg_ctr := 1/100, avg_engagement_rate := 3/100
    budget_percentage := 1/3, num_creatives := 1 }

/-- A one-day campaign configuration used by the determinism witness. -/
def cfgSmall : Config :=
  { duration_days := 1, total_budget := 100, start_date := 0
    google_display := pcSmall, meta := pcSmall, tiktok := pcSmall }

/-- A constant stream of draws. -/
def sOne : ℕ → ℚ := fun _ => 1

/-- The record invariants of the conservation claim. -/
def RecordInv (r : PRecord) : Prop :=
  0 ≤ r.impressions ∧ 0 ≤ r.reach ∧ r.reach ≤ r.impressions ∧
  0 ≤ r.clicks ∧ r.clicks ≤ r.impressions ∧
  0 ≤ r.engagements ∧ 0 ≤ r.video_views ∧ 0 ≤ r.spend

/-- The claim's hypotheses on one platform block: positive avg_cpm and
non-negative rates. -/
def PlatformOK (pc : PlatformConfig) : Prop :=
  0 < pc.avg_cpm ∧ 0 ≤ pc.avg_ctr ∧ 0 ≤ pc.avg_engagement_rate ∧
  0 ≤ pc.budget_percentage

/-- The claim's hypotheses on a configuration: positive budget and sane
platform blocks. -/
def ConfigOK (cfg : Config) : Prop :=
  0 < cfg.total_budget ∧ PlatformOK cfg.google_display ∧
  PlatformOK cfg.meta ∧ PlatformOK cfg.tiktok

/-- The ranges of the uniform draws consumed by _generate_daily_metrics. -/
def DrawsOK (dr : Draws) : Prop :=
  3/4 ≤ dr.fatigue_ctr ∧ dr.fatigue_ctr ≤ 17/20 ∧
  4/5 ≤ dr.fatigue_eng ∧ dr.fatigue_eng ≤ 9/10 ∧
  9/10 ≤ dr.noise_cpm ∧ dr.noise_cpm ≤ 11/10 ∧
  9/10 ≤ dr.noise_ctr ∧ dr.noise_ctr ≤ 11/10 ∧
  9/10 ≤ dr.noise_eng ∧ dr.noise_eng ≤ 11/10 ∧
  19/20 ≤ dr.noise_spend ∧ dr.noise_spend ≤ 21/20 ∧
  7/10 ≤ dr.reach_frac ∧ dr.reach_frac ≤ 9/10 ∧
  4/5 ≤ dr.video_frac ∧ dr.video_frac ≤ 19/20

/-- In-range draw values with the noise draws at their midpoint. -/
def drFair : Draws :=
  { fatigue_ctr := 4/5, fatigue_eng := 17/20, noise_cpm := 1, noise_ctr := 1
    noise_eng := 1, noise_spend := 1, reach_frac := 4/5, video_frac := 9/10 }

/-- A platform block with a configured average ctr of 2.0, a non-negative
rate the claim's hypotheses admit. -/
def pcHighCtr : PlatformConfig :=
  { avg_cpm := 10, avg_ctr := 2, avg_engagement_rate := 0
    budget_percentage := 1, num_creatives := 1 }

/-- A one-day configuration whose meta block has avg_ctr 2.0. -/
def cfgHighCtr : Config :=
  { duration_days := 1, total_budget := 1000, start_date := 0
    google_display := pcHighCtr, meta := pcHighCtr, tiktok := pcHighCtr }

/-- Dataset in which the creative of ordinal 2 appears in the data before
the creative of ordinal 1 (its first-day record having been dropped by the
corruption step), and both creatives have equal average ctr. -/
def dTie : List ProcRecord :=
  [{ baseProc with creative_id := 2, ctr := 1/10 },
   { baseProc with date := 1, days_since_start := 1, creative_id := 1, ctr := 1/10 }]

end CampaignIQ

namespace CampaignIQ

/-! ### C9: learning-phase cpm multiplier -/

/-- C9: for days_since_start below 7 the learning-phase cpm multiplier
equals 1.3 - days_since_start * 0.3 / 7 and lies in the closed interval
from 1.0 to 1.3; it is non-increasing in days_since_start; and from day 7
on it equals 1.0. -/
theorem learning_phase_cpm_spec (d : ℕ) :
    (d < 7 → learning_phase_cpm_multiplier d = 13/10 - (d : ℚ) * (3/10) / 7 ∧
      1 ≤ learning_phase_cpm_multiplier d ∧ learning_phase_cpm_multiplier d ≤ 13/10) ∧
    (7 ≤ d → learning_phase_cpm_multiplier d = 1) ∧
    (∀ e : ℕ, d ≤ e → learning_phase_cpm_multiplier e ≤ learning_phase_cpm_multiplier d) := by
  have hval : ∀ k : ℕ, k < 7 →
      learning_phase_cpm_multiplier k = 13/10 - (k : ℚ) * (3/10) / 7 := by
    intro k hk
    simp [learning_phase_cpm_multiplier, Nat.not_le.mpr hk]
  have hbounds : ∀ k : ℕ, k < 7 →
      1 ≤ learning_phase_cpm_multiplier k ∧ learning_phase_cpm_multiplier k ≤ 13/10 := by
    intro k hk
    have h6 : (k : ℚ) ≤ 6 := by exact_mod_cast Nat.lt_succ_iff.mp hk
    have h0 : (0 : ℚ) ≤ (k : ℚ) := by positivity
    rw [hval k hk]
    constructor <;> nlinarith
  refine ⟨fun h => ⟨hval d h, hbounds d h⟩, fun h => by
    simp [learning_phase_cpm_multiplier, h], fun e hde => ?_⟩
  rcases le_or_lt 7 d with hd | hd
  · have he : 7 ≤ e := le_trans hd hde
    simp [learning_phase_cpm_multiplier, hd, he]
  · rcases le_or_lt 7 e with he | he
    · have h1 := (hbounds d hd).1
      simp only [learning_phase_cpm_multiplier, he, if_pos]
      exact h1
    · rw [hval d hd, hval e he]
      have hc : (d : ℚ) ≤ (e : ℚ) := by exact_mod_cast hde
      nlinarith

/-- Witness for learning_phase_cpm_spec at days 3 and 9. -/
theorem learning_phase_cpm_spec_witness :
    learning_phase_cpm_multiplier 3 = 13/10 - (3 : ℚ) * (3/10) / 7 ∧
    learning_phase_cpm_multiplier 9 = 1 :=
  ⟨((learning_phase_cpm_spec 3).1 (by decide)).1,
   (learning_phase_cpm_spec 9).2.1 (by decide)⟩

/-! ### C1: cost_per_click zero-clicks guard -/

/-- C1 counterexample: on a dataset whose total clicks are zero, the
overall KPI cost_per_click of calculate_overall_kpis is not the sentinel
0; the unguarded division of numpy scalars yields a non-finite float
(modelled none), so the claim fails for the overall computation. -/
theorem overall_cpc_zero_clicks_cex :
    sumClicks dZero = 0 ∧ overall_cost_per_click dZero = none ∧
      overall_cost_per_click dZero ≠ some 0 := by decide

/-- C1 amended: the per-platform breakdown guards cost_per_click to 0 when
the platform's clicks total is zero, while the overall KPI computation
divides without a guard and produces a non-finite float (modelled none)
when the total clicks are zero; neither raises. -/
theorem cost_per_click_guard_semantics (d : List ProcRecord) (p : String) :
    (sumClicks (platformRows d p) = 0 → platform_cost_per_click d p = 0) ∧
    (sumClicks d = 0 → overall_cost_per_click d = none) := by
  constructor
  · intro h
    simp [platform_cost_per_click, h]
  · intro h
    simp [overall_cost_per_click, h]

/-- Witness for cost_per_click_guard_semantics on the zero-clicks dataset. -/
theorem cost_per_click_guard_semantics_witness :
    platform_cost_per_click dZero "meta" = 0 ∧ overall_cost_per_click dZero = none :=
  ⟨(cost_per_click_guard_semantics dZero "meta").1 (by decide),
   (cost_per_click_guard_semantics dZero "meta").2 (by decide)⟩

/-! ### C2: completeness arithmetic -/

/-- C2 counterexample: for a dataset in which platform meta has a single
creative over two covered days, validate_data_quality reports
expected_rows 6 (days_covered times the hardcoded 3), not days_covered
times the platform's creative count, which would be 2. -/
theorem completeness_expected_rows_cex :
    (data_completeness dOneCreative "meta").expected_rows = 6 ∧
    daysCovered dOneCreative * (creativesOnPlatform dOneCreative "meta" : ℤ) = 2 ∧
    (data_completeness dOneCreative "meta").expected_rows ≠
      daysCovered dOneCreative * (creativesOnPlatform dOneCreative "meta" : ℤ) := by
  decide

/-- C2 amended: for every loaded dataset and platform, the completeness
entry satisfies expected_rows = days_covered * 3 (the row multiplier is
the hardcoded constant 3, not the platform's creative count),
missing_rows = expected_rows - actual_rows, and completeness_percentage =
round(100 * actual_rows / expected_rows). -/
theorem data_completeness_arithmetic (l : List PRecord) (p : String) :
    (data_completeness l p).expected_rows = daysCovered l * 3 ∧
    (data_completeness l p).actual_rows = countPlatform l p ∧
    (data_completeness l p).missing_rows =
      (data_completeness l p).expected_rows - ((data_completeness l p).actual_rows : ℤ) ∧
    (data_completeness l p).completeness_percentage =
      pyRoundInt (100 * ((data_completeness l p).actual_rows : ℚ) /
        (((data_completeness l p).expected_rows : ℤ) : ℚ)) := by
  refine ⟨rfl, rfl, rfl, ?_⟩
  simp only [data_completeness]
  congr 1
  push_cast
  ring

/-! ### C7: weekend ctr lift guard -/

/-- C7 counterexample: on a dataset whose weekday average ctr for platform
meta is 0, analyze_day_of_week_patterns omits the weekend_ctr_lift key
altogether (modelled none) instead of reporting the value 0. -/
theorem weekend_lift_zero_weekday_cex :
    weekday_avg_ctr dLiftZero "meta" = some 0 ∧
    weekend_ctr_lift dLiftZero "meta" = none := by
  have h : weekday_avg_ctr dLiftZero "meta" = some 0 := by
    norm_num [weekday_avg_ctr, platformRows, dLiftZero, baseProc, baseRec,
      pmean, pyRound, pyRoundInt]
  exact ⟨h, by simp [weekend_ctr_lift, h]⟩

/-- C7 amended: when a platform's weekday average ctr is positive,
weekend_ctr_lift equals (weekend_avg_ctr - weekday_avg_ctr) /
weekday_avg_ctr * 100 (rounded to 2 decimals); when the weekday average is
0 or NaN, the weekend_ctr_lift key is absent from the platform entry
rather than 0. -/
theorem weekend_lift_semantics (d : List ProcRecord) (p : String) :
    (∀ w e : ℚ, weekday_avg_ctr d p = some w → 0 < w →
      weekend_avg_ctr d p = some e →
      weekend_ctr_lift d p = some (some (pyRound ((e - w) / w * 100) 2))) ∧
    (weekday_avg_ctr d p = some 0 → weekend_ctr_lift d p = none) ∧
    (weekday_avg_ctr d p = none → weekend_ctr_lift d p = none) := by
  refine ⟨fun w e hw hpos he => ?_, fun h => ?_, fun h => ?_⟩
  · simp [weekend_ctr_lift, hw, hpos, he]
  · simp [weekend_ctr_lift, h]
  · simp [weekend_ctr_lift, h]

/-- Witness for weekend_lift_semantics on a dataset with weekday average
ctr 0.1 and weekend average ctr 0.2 for platform meta. -/
theorem weekend_lift_semantics_witness :
    weekend_ctr_lift dLiftPos "meta" =
      some (some (pyRound ((1/5 - 1/10) / (1/10) * 100) 2)) :=
  (weekend_lift_semantics dLiftPos "meta").1 (1/10) (1/5)
    (by norm_num [weekday_avg_ctr, platformRows, dLiftPos, baseProc, baseRec,
      pmean, pyRound, pyRoundInt])
    (by norm_num)
    (by norm_num [weekend_avg_ctr, platformRows, dLiftPos, baseProc, baseRec,
      pmean, pyRound, pyRoundInt])

/-! ### C6: week-over-week percent changes -/

/-- C6: for every week after the first observed week, ctr_change_pct and
cpm_change_pct are the rounded percent changes of avg_ctr and avg_cpm
against the immediately preceding observed week, with value 0 when that
week's average is 0; the first observed week carries no delta fields. -/
theorem weekly_change_semantics (d : List ProcRecord) (i : ℕ)
    (h1 : 1 ≤ i) (h2 : i < (weeksSorted d).length) :
    (week_avg_ctr d ((weeksSorted d).getD (i - 1) 0) = 0 →
      ctr_change_pct d i = some 0) ∧
    (0 < week_avg_ctr d ((weeksSorted d).getD (i - 1) 0) →
      ctr_change_pct d i = some (pyRound
        ((week_avg_ctr d ((weeksSorted d).getD i 0) -
          week_avg_ctr d ((weeksSorted d).getD (i - 1) 0)) /
         week_avg_ctr d ((weeksSorted d).getD (i - 1) 0) * 100) 2)) ∧
    (week_avg_cpm d ((weeksSorted d).getD (i - 1) 0) = 0 →
      cpm_change_pct d i = some 0) ∧
    (0 < week_avg_cpm d ((weeksSorted d).getD (i - 1) 0) →
      cpm_change_pct d i = some (pyRound
        ((week_avg_cpm d ((weeksSorted d).getD i 0) -
          week_avg_cpm d ((weeksSorted d).getD (i - 1) 0)) /
         week_avg_cpm d ((weeksSorted d).getD (i - 1) 0) * 100) 2)) ∧
    ctr_change_pct d 0 = none ∧ cpm_change_pct d 0 = none := by
  have hne : ¬(i = 0 ∨ (weeksSorted d).length ≤ i) := by omega
  refine ⟨fun h => ?_, fun h => ?_, fun h => ?_, fun h => ?_, ?_, ?_⟩
  · rw [ctr_change_pct.eq_def, if_neg hne, h]
    simp
  · rw [ctr_change_pct.eq_def, if_neg hne]
    simp only [if_pos h]
  · rw [cpm_change_pct.eq_def, if_neg hne, h]
    simp
  · rw [cpm_change_pct.eq_def, if_neg hne]
    simp only [if_pos h]
  · simp [ctr_change_pct]
  · simp [cpm_change_pct]

/-- Witness for weekly_change_semantics on a two-week dataset with
positive week-1 averages. -/
theorem weekly_change_semantics_witness :
    ctr_change_pct dWeeks 1 = some (pyRound
      ((week_avg_ctr dWeeks ((weeksSorted dWeeks).getD 1 0) -
        week_avg_ctr dWeeks ((weeksSorted dWeeks).getD (1 - 1) 0)) /
       week_avg_ctr dWeeks ((weeksSorted dWeeks).getD (1 - 1) 0) * 100) 2) ∧
    ctr_change_pct dWeeks 0 = none :=
  ⟨(weekly_change_semantics dWeeks 1 (by decide) (by decide)).2.1
     (by norm_num [week_avg_ctr, weekRows, weeksSorted, uniqueKeys, dWeeks,
       baseProc, baseRec, pyRound, pyRoundInt, List.insertionSort, List.orderedInsert]),
   (weekly_change_semantics dWeeks 1 (by decide) (by decide)).2.2.2.2.1⟩

/-! ### C10: derived features are relative to the minimum date in the data -/

/-- Folding min over dates either keeps the seed or lands on a member. -/
theorem foldl_min_date_cases : ∀ (t : List PRecord) (a : ℤ),
    t.foldl (fun acc x => min acc x.date) a = a ∨
    ∃ x ∈ t, t.foldl (fun acc x => min acc x.date) a = x.date := by
  intro t
  induction t with
  | nil => intro a; left; rfl
  | cons y t ih =>
    intro a
    have hfold : (y :: t).foldl (fun acc x => min acc x.date) a
        = t.foldl (fun acc x => min acc x.date) (min a y.date) := rfl
    rcases ih (min a y.date) with h | ⟨x, hx, h⟩
    · rcases le_total a y.date with hle | hle
      · left
        rw [hfold, h, min_eq_left hle]
      · right
        exact ⟨y, List.mem_cons_self y t, by rw [hfold, h, min_eq_right hle]⟩
    · right
      exact ⟨x, List.mem_cons_of_mem y hx, by rw [hfold, h]⟩

/-- The minimum date of a non-empty dataset is attained by some record. -/
theorem minDate_attained (l : List PRecord) (hl : l ≠ []) :
    ∃ r ∈ l, r.date = minDate l := by
  cases l with
  | nil => exact absurd rfl hl
  | cons r t =>
    rcases foldl_min_date_cases t r.date with h | ⟨x, hx, h⟩
    · exact ⟨r, List.mem_cons_self r t, h.symm⟩
    · exact ⟨x, List.mem_cons_of_mem r hx, h.symm⟩

/-- C10: add_derived_features computes days_since_start and week_number
relative to the minimum date present in the loaded data, not the
configured campaign start; in particular on every non-empty input the
records carrying the minimum date get days_since_start 0 and week_number
1, and every record's week bucket is (date - min)/7 + 1. -/
theorem derived_features_relative_to_min (l : List PRecord) :
    (∀ r ∈ add_derived_features l,
      r.days_since_start = r.date - minDate l ∧
      r.week_number = (r.date - minDate l).fdiv 7 + 1 ∧
      (r.date = minDate l → r.days_since_start = 0 ∧ r.week_number = 1)) ∧
    (l ≠ [] → ∃ r ∈ add_derived_features l,
      r.date = minDate l ∧ r.days_since_start = 0 ∧ r.week_number = 1) := by
  constructor
  · intro r hr
    unfold add_derived_features at hr
    obtain ⟨x, hx, rfl⟩ := List.mem_map.mp hr
    refine ⟨rfl, rfl, fun h => ?_⟩
    have h' : x.date = minDate l := h
    constructor
    · show x.date - minDate l = 0
      omega
    · show (x.date - minDate l).fdiv 7 + 1 = 1
      rw [h', sub_self, Int.zero_fdiv]
      norm_num
  · intro hl
    obtain ⟨x, hx, hxd⟩ := minDate_attained l hl
    refine ⟨_, List.mem_map_of_mem _ (List.mem_mergeSort.mpr hx), hxd, ?_, ?_⟩
    · show x.date - minDate l = 0
      omega
    · show (x.date - minDate l).fdiv 7 + 1 = 1
      rw [hxd, sub_self, Int.zero_fdiv]
      norm_num

/-- Witness for derived_features_relative_to_min on an out-of-order
two-day dataset. -/
theorem derived_features_relative_to_min_witness :
    ∃ r ∈ add_derived_features dShuffled,
      r.date = minDate dShuffled ∧ r.days_since_start = 0 ∧ r.week_number = 1 :=
  (derived_features_relative_to_min dShuffled).2 (by simp [dShuffled])

/-! ### C3: determinism of the full generation pipeline -/

/-- C3: the full simulation pipeline, the data-quality corruption step
included, is a pure function of the configuration and the two
seed-determined pseudorandom streams, so two runs with identical
configuration and identical streams (identical seed) produce identical
record sequences. -/
theorem generation_deterministic (cfg : Config) (s1 s2 r1 r2 : ℕ → ℚ)
    (hs : s1 = s2) (hr : r1 = r2) :
    generate_campaign_data cfg s1 r1 = generate_campaign_data cfg s2 r2 := by
  rw [hs, hr]

/-- Witness for generation_deterministic on a small configuration. -/
theorem generation_deterministic_witness :
    generate_campaign_data cfgSmall sOne sOne =
      generate_campaign_data cfgSmall sOne sOne :=
  generation_deterministic cfgSmall sOne sOne sOne sOne rfl rfl

/-! ### C8: frame effect of the corruption step -/

/-- Dropping the n-th platform row yields a sublist of the dataset. -/
theorem removePlatformRow_sublist : ∀ (l : List PRecord) (p : String) (n : ℕ),
    (removePlatformRow l p n).Sublist l := by
  intro l
  induction l with
  | nil =>
    intro p n
    simp [removePlatformRow]
  | cons r t ih =>
    intro p n
    by_cases hp : r.platform = p
    · by_cases hn : n = 0
      · simp only [removePlatformRow, if_pos hp, if_pos hn]
        exact List.sublist_cons_self r t
      · simp only [removePlatformRow, if_pos hp, if_neg hn]
        exact List.Sublist.cons₂ r (ih p (n - 1))
    · simp only [removePlatformRow, if_neg hp]
      exact List.Sublist.cons₂ r (ih p n)

/-- Iterated dropping yields a sublist of the dataset. -/
theorem dropRows_sublist : ∀ (k : ℕ) (l : List PRecord) (p : String)
    (snp : ℕ → ℚ) (i : ℕ), ((dropRows l p snp i k).1).Sublist l := by
  intro k
  induction k with
  | zero =>
    intro l p snp i
    exact List.Sublist.refl l
  | succ k ih =>
    intro l p snp i
    exact (ih _ p snp (i + 1)).trans (removePlatformRow_sublist l p _)

/-- One platform iteration of the drop step yields a sublist. -/
theorem dropStep_sublist (snp srand : ℕ → ℚ) (acc : List PRecord × ℕ × ℕ)
    (p : String) : ((dropStep snp srand acc p).1).Sublist acc.1 := by
  unfold dropStep
  split
  · exact dropRows_sublist _ _ _ _ _
  · exact List.Sublist.refl _

/-- The whole drop phase yields a sublist of the input dataset. -/
theorem foldl_dropStep_sublist (snp srand : ℕ → ℚ) :
    ∀ (ps : List String) (acc : List PRecord × ℕ × ℕ),
      ((ps.foldl (dropStep snp srand) acc).1).Sublist acc.1 := by
  intro ps
  induction ps with
  | nil =>
    intro acc
    exact List.Sublist.refl _
  | cons p ps ih =>
    intro acc
    exact (ih (dropStep snp srand acc p)).trans (dropStep_sublist snp srand acc p)

/-- C8: the corruption step is the drop phase (a sublist of the input)
followed by the outlier update; the outlier update rewrites exactly the
sampled position, scaling the five count fields by the common drawn
factor, leaving spend (and date, platform, creative, engagement_rate)
unchanged, and recomputing exactly that record's cpm and ctr from the
scaled values; every other kept record is unchanged in all fields. -/
theorem corruption_outlier_frame (l : List PRecord) (snp srand : ℕ → ℚ) (i j : ℕ) :
    (∃ kept : List PRecord, ∃ i2 : ℕ, kept.Sublist l ∧
      (add_data_quality_issues l snp srand i j).1 =
        applyOutlier kept (selectIndex (snp i2) kept.length) (snp (i2 + 1))) ∧
    (∀ (ds : List PRecord) (idx : ℕ) (m : ℚ),
      (∀ q : ℕ, q ≠ idx → (applyOutlier ds idx m)[q]? = ds[q]?) ∧
      (∀ r, ds[idx]? = some r →
        (applyOutlier ds idx m)[idx]? = some (scaleOutlier r m))) ∧
    (∀ (r : PRecord) (m : ℚ), scaleOutlier r m = { r with
        impressions := pyInt ((r.impressions : ℚ) * m)
        reach := pyInt ((r.reach : ℚ) * m)
        clicks := pyInt ((r.clicks : ℚ) * m)
        engagements := pyInt ((r.engagements : ℚ) * m)
        video_views := pyInt ((r.video_views : ℚ) * m)
        cpm := pyRound (r.spend / ((pyInt ((r.impressions : ℚ) * m) : ℤ) : ℚ) * 1000) 2
        ctr := pyRound (((pyInt ((r.clicks : ℚ) * m) : ℤ) : ℚ) /
          ((pyInt ((r.impressions : ℚ) * m) : ℤ) : ℚ)) 4 }) := by
  refine ⟨?_, fun ds idx m => ⟨fun q hq => ?_, fun r hr => ?_⟩, fun r m => rfl⟩
  · exact ⟨(platforms.foldl (dropStep snp srand) (l, i, j)).1,
      (platforms.foldl (dropStep snp srand) (l, i, j)).2.1,
      foldl_dropStep_sublist snp srand platforms (l, i, j), rfl⟩
  · simp only [applyOutlier, List.getElem?_mapIdx, hq, if_false]
    cases ds[q]? <;> simp
  · simp [applyOutlier, List.getElem?_mapIdx, hr]

/-- Witness for corruption_outlier_frame: on a concrete two-record
dataset the non-outlier position is untouched and the outlier position is
rewritten to its scaled version. -/
theorem corruption_outlier_frame_witness :
    (applyOutlier dShuffled 0 (5/2))[1]? = dShuffled[1]? ∧
    (applyOutlier dShuffled 0 (5/2))[0]? =
      some (scaleOutlier ({ baseRec with date := 1 }) (5/2)) :=
  ⟨((corruption_outlier_frame dShuffled sOne sOne 0 0).2.1 dShuffled 0 (5/2)).1
     1 (by decide),
   ((corruption_outlier_frame dShuffled sOne sOne 0 0).2.1 dShuffled 0 (5/2)).2
     ({ baseRec with date := 1 }) rfl⟩

/-! ### C4: record invariants of the simulator -/

/-- Truncation of a non-negative rational is non-negative. -/
theorem pyInt_nonneg {x : ℚ} (hx : 0 ≤ x) : 0 ≤ pyInt x := by
  rw [pyInt, if_pos hx]
  exact Int.floor_nonneg.mpr hx

/-- Truncation is bounded by any integer bound of the argument. -/
theorem pyInt_le_intCast {x : ℚ} {n : ℤ} (h : x ≤ (n : ℚ)) : pyInt x ≤ n := by
  rw [pyInt]
  split
  · exact le_trans (Int.floor_le_floor h) (le_of_eq (Int.floor_intCast n))
  · exact Int.ceil_le.mpr h

/-- Truncation is monotone on non-negative arguments. -/
theorem pyInt_mono_nonneg {x y : ℚ} (hx : 0 ≤ x) (hxy : x ≤ y) :
    pyInt x ≤ pyInt y := by
  rw [pyInt, if_pos hx, pyInt, if_pos (le_trans hx hxy)]
  exact Int.floor_le_floor hxy

/-- Rounding to an integer preserves non-negativity. -/
theorem pyRoundInt_nonneg {x : ℚ} (hx : 0 ≤ x) : 0 ≤ pyRoundInt x := by
  have h0 : (0 : ℤ) ≤ ⌊x⌋ := Int.floor_nonneg.mpr hx
  rw [pyRoundInt]
  split
  · exact h0
  · split
    · omega
    · split
      · exact h0
      · omega

/-- Rounding preserves non-negativity. -/
theorem pyRound_nonneg {x : ℚ} (hx : 0 ≤ x) (n : ℕ) : 0 ≤ pyRound x n := by
  rw [pyRound]
  apply div_nonneg
  · exact_mod_cast pyRoundInt_nonneg (mul_nonneg hx (by positivity))
  · positivity

/-- The learning-phase cpm multiplier is positive. -/
theorem learning_cpm_mult_pos (d : ℕ) : 0 < learning_phase_cpm_multiplier d := by
  rw [learning_phase_cpm_multiplier]
  split
  · norm_num
  · rename_i h
    have h6 : (d : ℚ) ≤ 6 := by
      exact_mod_cast Nat.lt_succ_iff.mp (Nat.not_le.mp h)
    have h0 : (0 : ℚ) ≤ (d : ℚ) := by positivity
    nlinarith

/-- The learning-phase ctr multiplier is non-negative. -/
theorem learning_ctr_mult_nonneg (d : ℕ) : 0 ≤ learning_phase_ctr_multiplier d := by
  rw [learning_phase_ctr_multiplier]
  split
  · norm_num
  · positivity

/-- The day-of-week multiplier is positive. -/
theorem dow_mult_pos (p : String) (w : Bool) : 0 < day_of_week_multiplier p w := by
  rw [day_of_week_multiplier]
  split
  · norm_num
  · split
    · norm_num
    · split
      · norm_num
      · split <;> norm_num

/-- The creative multiplier is positive. -/
theorem creative_mult_pos (c : ℕ) : 0 < creative_multiplier c := by
  rw [creative_multiplier]
  split
  · norm_num
  · split
    · norm_num
    · split <;> norm_num

/-- A sane configuration yields a sane block for every platform lookup. -/
theorem platform_config_ok {cfg : Config} (hc : ConfigOK cfg) (p : String) :
    PlatformOK (cfg.platform_config p) := by
  rw [Config.platform_config]
  split
  · exact hc.2.1
  · split
    · exact hc.2.2.1
    · exact hc.2.2.2

/-- C4 counterexample: with positive budget, positive avg_cpm and
non-negative rates only (meta's configured avg_ctr is 2.0), a simulator
record has clicks strictly above impressions, refuting the claimed
clicks-vs-impressions bound under the claim's own hypotheses. -/
theorem generator_clicks_exceed_impressions_cex :
    ConfigOK cfgHighCtr ∧ DrawsOK drFair ∧
    (generate_daily_metrics cfgHighCtr "meta" 1 0 drFair).impressions <
      (generate_daily_metrics cfgHighCtr "meta" 1 0 drFair).clicks := by
  refine ⟨?_, ?_, ?_⟩
  · norm_num [ConfigOK, PlatformOK, cfgHighCtr, pcHighCtr]
  · norm_num [DrawsOK, drFair]
  · norm_num [generate_daily_metrics, cpmValue, ctrValue, spendValue, plannedBudget,
      Config.platform_config, cfgHighCtr, pcHighCtr, drFair,
      learning_phase_cpm_multiplier, learning_phase_ctr_multiplier,
      day_of_week_multiplier, creative_multiplier, weekNumberOf, isWeekendDate,
      dateOf, dayOfWeek, isSocial, pyInt]

/-- C4 amended: under the claim's hypotheses (positive budget, positive
avg_cpm, non-negative rates, draws in their uniform ranges) every
generated record satisfies reach at most impressions, all counts and the
spend non-negative, unconditionally; the clicks-at-most-impressions bound
holds exactly when the record's effective ctr (after all multipliers and
noise) is at most 1, giving the full invariant set then; and the outlier
scaling of the corruption step preserves all these invariants for any
non-negative factor. -/
theorem generator_record_invariants (cfg : Config) (p : String)
    (creative day : ℕ) (dr : Draws) (hc : ConfigOK cfg) (hd : DrawsOK dr) :
    (0 ≤ (generate_daily_metrics cfg p creative day dr).impressions ∧
     0 ≤ (generate_daily_metrics cfg p creative day dr).reach ∧
     (generate_daily_metrics cfg p creative day dr).reach ≤
       (generate_daily_metrics cfg p creative day dr).impressions ∧
     0 ≤ (generate_daily_metrics cfg p creative day dr).clicks ∧
     0 ≤ (generate_daily_metrics cfg p creative day dr).engagements ∧
     0 ≤ (generate_daily_metrics cfg p creative day dr).video_views ∧
     0 ≤ (generate_daily_metrics cfg p creative day dr).spend) ∧
    (ctrValue cfg p creative day dr ≤ 1 →
      RecordInv (generate_daily_metrics cfg p creative day dr)) ∧
    (∀ (r : PRecord) (m : ℚ), 0 ≤ m → RecordInv r →
      RecordInv (scaleOutlier r m)) := by
  obtain ⟨hf1, hf2, hg1, hg2, hnc1, hnc2, hnt1, hnt2, hne1, hne2,
    hns1, hns2, hrf1, hrf2, hvf1, hvf2⟩ := hd
  have hpc := platform_config_ok hc p
  have hcpm : 0 < cpmValue cfg p day dr := by
    have hl := learning_cpm_mult_pos day
    have hn : (0 : ℚ) < dr.noise_cpm := lt_of_lt_of_le (by norm_num) hnc1
    exact mul_pos (mul_pos hpc.1 hl) hn
  have hsp : 0 ≤ spendValue cfg p dr := by
    have hpb : 0 ≤ plannedBudget cfg p := by
      apply div_nonneg (div_nonneg (mul_nonneg (le_of_lt hc.1) hpc.2.2.2) ?_) ?_
      · positivity
      · positivity
    exact mul_nonneg hpb (le_trans (by norm_num) hns1)
  have hctr0 : 0 ≤ ctrValue cfg p creative day dr := by
    rw [ctrValue]
    have hfat : 0 ≤ (if 3 < weekNumberOf day then dr.fatigue_ctr else 1) := by
      split
      · linarith
      · norm_num
    exact mul_nonneg (mul_nonneg (mul_nonneg (mul_nonneg
      (mul_nonneg hpc.2.1 (learning_ctr_mult_nonneg day)) hfat)
      (le_of_lt (dow_mult_pos p _))) (le_of_lt (creative_mult_pos creative)))
      (by linarith)
  have heng0 : 0 ≤ engValue cfg p creative day dr := by
    rw [engValue]
    have hfat : 0 ≤ (if 3 < weekNumberOf day then dr.fatigue_eng else 1) := by
      split
      · linarith
      · norm_num
    exact mul_nonneg (mul_nonneg (mul_nonneg
      (mul_nonneg hpc.2.2.1 hfat) (le_of_lt (dow_mult_pos p _)))
      (le_of_lt (creative_mult_pos creative))) (by linarith)
  have himp0 : 0 ≤ pyInt (spendValue cfg p dr / cpmValue cfg p day dr * 1000) :=
    pyInt_nonneg (mul_nonneg (div_nonneg hsp (le_of_lt hcpm)) (by norm_num))
  have himpQ : (0 : ℚ) ≤
      ((pyInt (spendValue cfg p dr / cpmValue cfg p day dr * 1000) : ℤ) : ℚ) := by
    exact_mod_cast himp0
  have hbase : 0 ≤ (generate_daily_metrics cfg p creative day dr).impressions ∧
      0 ≤ (generate_daily_metrics cfg p creative day dr).reach ∧
      (generate_daily_metrics cfg p creative day dr).reach ≤
        (generate_daily_metrics cfg p creative day dr).impressions ∧
      0 ≤ (generate_daily_metrics cfg p creative day dr).clicks ∧
      0 ≤ (generate_daily_metrics cfg p creative day dr).engagements ∧
      0 ≤ (generate_daily_metrics cfg p creative day dr).video_views ∧
      0 ≤ (generate_daily_metrics cfg p creative day dr).spend := by
    unfold generate_daily_metrics
    dsimp only
    refine ⟨himp0,
      pyInt_nonneg (mul_nonneg himpQ (le_trans (by norm_num) hrf1)), ?_,
      pyInt_nonneg (mul_nonneg himpQ hctr0), ?_,
      pyInt_nonneg (mul_nonneg himpQ (le_trans (by norm_num) hvf1)),
      pyRound_nonneg hsp 2⟩
    · exact pyInt_le_intCast
        (mul_le_of_le_one_right himpQ (le_trans hrf2 (by norm_num)))
    · split
      · exact pyInt_nonneg (mul_nonneg himpQ heng0)
      · exact le_refl 0
  have hclicks : ctrValue cfg p creative day dr ≤ 1 →
      (generate_daily_metrics cfg p creative day dr).clicks ≤
        (generate_daily_metrics cfg p creative day dr).impressions := by
    intro hctr
    unfold generate_daily_metrics
    dsimp only
    exact pyInt_le_intCast (mul_le_of_le_one_right himpQ hctr)
  refine ⟨hbase, fun hctr => ⟨hbase.1, hbase.2.1, hbase.2.2.1, hbase.2.2.2.1,
    hclicks hctr, hbase.2.2.2.2.1, hbase.2.2.2.2.2.1, hbase.2.2.2.2.2.2⟩, ?_⟩
  intro r m hm hr
  obtain ⟨h1, h2, h3, h4, h5, h6, h7, h8⟩ := hr
  have c1 : (0 : ℚ) ≤ (r.impressions : ℚ) := by exact_mod_cast h1
  have c2 : (0 : ℚ) ≤ (r.reach : ℚ) := by exact_mod_cast h2
  have c3 : ((r.reach : ℚ)) ≤ (r.impressions : ℚ) := by exact_mod_cast h3
  have c4 : (0 : ℚ) ≤ (r.clicks : ℚ) := by exact_mod_cast h4
  have c5 : ((r.clicks : ℚ)) ≤ (r.impressions : ℚ) := by exact_mod_cast h5
  have c6 : (0 : ℚ) ≤ (r.engagements : ℚ) := by exact_mod_cast h6
  have c7 : (0 : ℚ) ≤ (r.video_views : ℚ) := by exact_mod_cast h7
  unfold scaleOutlier RecordInv
  dsimp only
  refine ⟨pyInt_nonneg (mul_nonneg c1 hm),
    pyInt_nonneg (mul_nonneg c2 hm), ?_,
    pyInt_nonneg (mul_nonneg c4 hm), ?_,
    pyInt_nonneg (mul_nonneg c6 hm),
    pyInt_nonneg (mul_nonneg c7 hm), h8⟩
  · exact pyInt_mono_nonneg (mul_nonneg c2 hm)
      (mul_le_mul_of_nonneg_right c3 hm)
  · exact pyInt_mono_nonneg (mul_nonneg c4 hm)
      (mul_le_mul_of_nonneg_right c5 hm)

/-- Witness for generator_record_invariants on a small sane
configuration. -/
theorem generator_record_invariants_witness :
    RecordInv (generate_daily_metrics cfgSmall "meta" 1 0 drFair) :=
  (generator_record_invariants cfgSmall "meta" 1 0 drFair
    (by norm_num [ConfigOK, PlatformOK, cfgSmall, pcSmall])
    (by norm_num [DrawsOK, drFair])).2.1
    (by norm_num [ctrValue, Config.platform_config, cfgSmall, pcSmall, drFair,
      learning_phase_ctr_multiplier, day_of_week_multiplier,
      creative_multiplier, weekNumberOf, isWeekendDate, dateOf, dayOfWeek])

/-! ### C5: creative ranking -/

/-- Membership in the deduplicated key list implies membership in the
original list. -/
theorem mem_of_mem_uniqueKeys {α : Type} [DecidableEq α] {a : α} :
    ∀ {l : List α}, a ∈ uniqueKeys l → a ∈ l := by
  intro l
  induction l with
  | nil => simp [uniqueKeys]
  | cons x t ih =>
    intro h
    rcases List.mem_cons.mp h with rfl | h2
    · exact List.mem_cons_self _ _
    · exact List.mem_cons_of_mem _ (ih (List.mem_of_mem_filter h2))

/-- The deduplicated key list holds no duplicates. -/
theorem uniqueKeys_nodup {α : Type} [DecidableEq α] :
    ∀ (l : List α), (uniqueKeys l).Nodup := by
  intro l
  induction l with
  | nil => simp [uniqueKeys]
  | cons x t ih =>
    rw [uniqueKeys]
    refine List.nodup_cons.mpr ⟨?_, ih.filter _⟩
    intro hmem
    have := List.of_mem_filter hmem
    simp at this

/-- Position of the head. -/
theorem posOf_cons_self {α : Type} [DecidableEq α] (x : α) (t : List α) :
    posOf x (x :: t) = 0 := by
  simp [posOf]

/-- Position behind a distinct head. -/
theorem posOf_cons_ne {α : Type} [DecidableEq α] {x k : α} (h : x ≠ k)
    (t : List α) : posOf k (x :: t) = posOf k t + 1 := by
  simp [posOf, h]

/-- In a duplicate-free list, the first element of an ordered pair
sublist sits at a strictly smaller position. -/
theorem pair_sublist_posOf_lt {α : Type} [DecidableEq α] {a b : α} :
    ∀ {S : List α}, S.Nodup → ([a, b]).Sublist S → posOf a S < posOf b S := by
  intro S
  induction S with
  | nil =>
    intro _ h
    exact absurd (List.sublist_nil.mp h) (by simp)
  | cons x t ih =>
    intro hnd hab
    obtain ⟨hx, hnd2⟩ := List.nodup_cons.mp hnd
    cases hab with
    | cons _ h =>
      have ha : a ∈ t := h.subset (by simp)
      have hb : b ∈ t := h.subset (by simp)
      have hxa : x ≠ a := fun e => hx (e ▸ ha)
      have hxb : x ≠ b := fun e => hx (e ▸ hb)
      rw [posOf_cons_ne hxa, posOf_cons_ne hxb]
      exact Nat.succ_lt_succ (ih hnd2 h)
    | cons₂ _ h =>
      have hb : b ∈ t := h.subset (by simp)
      have hne : a ≠ b := fun e => hx (e ▸ hb)
      rw [posOf_cons_self, posOf_cons_ne hne]
      omega

/-- Over a duplicate-free list, mapping each element to its 1-based
position yields exactly the positions 1..N in order. -/
theorem map_posOf_range {α : Type} [DecidableEq α] :
    ∀ (S : List α), S.Nodup →
      S.map (fun c => posOf c S + 1) = List.range' 1 S.length := by
  intro S
  induction S with
  | nil => intro _; simp
  | cons x t ih =>
    intro hnd
    obtain ⟨hx, hnd2⟩ := List.nodup_cons.mp hnd
    have hmap : t.map (fun c => posOf c (x :: t) + 1)
        = t.map (fun c => posOf c t + 1 + 1) := by
      apply List.map_congr_left
      intro c hc
      rw [posOf_cons_ne (fun e => hx (by rw [e]; exact hc)) t]
    rw [List.map_cons, posOf_cons_self, hmap, List.length_cons, List.range'_succ]
    refine List.cons_eq_cons.mpr ⟨by norm_num, ?_⟩
    have hcomp : t.map (fun c => posOf c t + 1 + 1)
        = (t.map (fun c => posOf c t + 1)).map (fun n => 1 + n) := by
      rw [List.map_map]
      apply List.map_congr_left
      intro c _
      simp [Function.comp]
      omega
    rw [hcomp, ih hnd2]
    have hmr := List.map_add_range' 1 1 t.length 1
    simp only [] at hmr
    exact hmr

instance instTotalCtrGE (d : List ProcRecord) :
    IsTotal (String × ℕ) (ctrGE d) :=
  ⟨fun a b => le_total (creative_avg_ctr d b) (creative_avg_ctr d a)⟩

instance instTransCtrGE (d : List ProcRecord) :
    IsTrans (String × ℕ) (ctrGE d) :=
  ⟨fun _ _ _ h1 h2 => le_trans h2 h1⟩

/-- C5 amended: within each platform the ranks form the gapless range
1..N over exactly the platform's creatives, a creative of maximal avg_ctr
receives rank 1, and ties are broken stably by the order in which the
creatives first appear in the processed dataset (which coincides with the
original creation order only as long as no reordering or drop moved a
later-created creative ahead). -/
theorem creative_ranking_correct (d : List ProcRecord) (p : String) :
    (((platformCreatives d p).map (rank_by_ctr d p)).Perm
      (List.range' 1 (platformCreatives d p).length)) ∧
    (platformCreatives d p ≠ [] → ∃ top ∈ platformCreatives d p,
      rank_by_ctr d p top = 1 ∧
      ∀ c ∈ platformCreatives d p,
        creative_avg_ctr d c ≤ creative_avg_ctr d top) ∧
    (∀ a b : String × ℕ, ([a, b]).Sublist (platformCreatives d p) →
      creative_avg_ctr d a = creative_avg_ctr d b →
      rank_by_ctr d p a < rank_by_ctr d p b) := by
  have hperm : (sortedCreatives d p).Perm (platformCreatives d p) :=
    List.perm_insertionSort _ _
  have hndpc : (platformCreatives d p).Nodup := (uniqueKeys_nodup _).filter _
  have hnd : (sortedCreatives d p).Nodup := hperm.nodup_iff.mpr hndpc
  have hrank : ∀ c, rank_by_ctr d p c = posOf c (sortedCreatives d p) + 1 :=
    fun _ => rfl
  refine ⟨?_, ?_, ?_⟩
  · have h1 : ((platformCreatives d p).map (rank_by_ctr d p)).Perm
        ((sortedCreatives d p).map (rank_by_ctr d p)) := (hperm.symm).map _
    have h2 : (sortedCreatives d p).map (rank_by_ctr d p)
        = List.range' 1 (sortedCreatives d p).length := map_posOf_range _ hnd
    rw [hperm.length_eq] at h2
    exact h2 ▸ h1
  · intro hne
    have hSne : sortedCreatives d p ≠ [] := by
      intro h
      rw [h] at hperm
      exact hne hperm.nil_eq.symm
    obtain ⟨top, rest, hS⟩ := List.exists_cons_of_ne_nil hSne
    have hsorted : List.Pairwise (ctrGE d) (sortedCreatives d p) :=
      List.sorted_insertionSort _ _
    refine ⟨top, ?_, ?_, ?_⟩
    · exact hperm.subset (hS ▸ List.mem_cons_self top rest)
    · rw [hrank, hS, posOf_cons_self]
    · intro c hc
      have hcS : c ∈ sortedCreatives d p := hperm.mem_iff.mpr hc
      rw [hS] at hcS hsorted
      rcases List.mem_cons.mp hcS with rfl | hcrest
      · exact le_refl _
      · exact (List.pairwise_cons.mp hsorted).1 c hcrest
  · intro a b hab heq
    have hr : ctrGE d a b := le_of_eq heq.symm
    have hSab : ([a, b]).Sublist (sortedCreatives d p) :=
      List.pair_sublist_insertionSort (r := ctrGE d) hr hab
    have hlt := pair_sublist_posOf_lt hnd hSab
    rw [hrank, hrank]
    omega

/-- C5 counterexample: on a processed dataset in which creative ordinal 2
first appears before creative ordinal 1 and both have equal avg_ctr, the
later-created creative 2 receives rank 1 and creative 1 rank 2, so the
tie is broken by first appearance, not by original creation order. -/
theorem creative_tiebreak_cex :
    creative_avg_ctr dTie ("meta", 1) = creative_avg_ctr dTie ("meta", 2) ∧
    rank_by_ctr dTie "meta" ("meta", 2) = 1 ∧
    rank_by_ctr dTie "meta" ("meta", 1) = 2 := by
  have havg : creative_avg_ctr dTie ("meta", 1) = creative_avg_ctr dTie ("meta", 2) := by
    norm_num [creative_avg_ctr, creativeRows, recKey, dTie, baseProc, baseRec]
  have hkeys : platformCreatives dTie "meta" = [("meta", 2), ("meta", 1)] := by
    norm_num [platformCreatives, creativeKeys, uniqueKeys, dTie, recKey,
      baseProc, baseRec]
  have hle : creative_avg_ctr dTie ("meta", 1) ≤ creative_avg_ctr dTie ("meta", 2) :=
    le_of_eq havg
  have hsort : sortedCreatives dTie "meta" = [("meta", 2), ("meta", 1)] := by
    rw [sortedCreatives, hkeys]
    simp [List.insertionSort, List.orderedInsert, ctrGE, hle]
  refine ⟨havg, ?_, ?_⟩
  · show posOf ("meta", 2) (sortedCreatives dTie "meta") + 1 = 1
    rw [hsort]
    simp [posOf]
  · show posOf ("meta", 1) (sortedCreatives dTie "meta") + 1 = 2
    rw [hsort]
    simp [posOf]

/-- Witness for creative_ranking_correct: on the tie dataset the earlier
appearing creative gets the strictly smaller rank. -/
theorem creative_ranking_correct_witness :
    rank_by_ctr dTie "meta" ("meta", 2) < rank_by_ctr dTie "meta" ("meta", 1) :=
  (creative_ranking_correct dTie "meta").2.2 ("meta", 2) ("meta", 1)
    (by norm_num [platformCreatives, creativeKeys, uniqueKeys, dTie, recKey,
      baseProc, baseRec, List.Sublist.refl])
    (by norm_num [creative_avg_ctr, creativeRows, recKey, dTie, baseProc, baseRec])

end CampaignIQ
